import Mathlib

/-!
Verification of the wisdom-mcp entity-addressing, signing, evidence-analysis
and preset-selection subsystems, as a shallow embedding of the TypeScript
source into Lean.

Strings are modelled as `List Char` (JS strings are sequences of UTF-16 code
units; all data handled here is plain ASCII).  JS numbers are modelled as
exact rationals `ℚ`.  Fallible code returns `Except`.  External collaborators
(the gateway, the system clock, the UUID generator, the Ed25519 primitive) are
passed in as explicit parameters.
-/

/-- JS strings modelled as lists of characters. -/
abbrev LStr : Type := List Char

-- ===========================================================================
-- src/gateway/types.ts : Address, addressToString, parseAddress
-- ===========================================================================

/-- Embeds `Address` from src/gateway/types.ts.  `domain` is kept as a raw
string because `parseAddress` casts `parts[1] as AddressDomain` without any
runtime validation. -/
structure Address where
  server_port : LStr
  domain : LStr
  entity : LStr
deriving DecidableEq, Repr

/-- The six `AddressDomain` enum values of src/gateway/types.ts. -/
def addressDomains : List LStr :=
  ["AGENT".data, "TAG".data, "FRAGMENT".data, "RELATION".data,
   "TRANSFORMATION".data, "HUB".data]

/-- Embeds `createLocalAddress` from src/gateway/types.ts. -/
def createLocalAddress (domain : LStr) (entity : LStr) : Address :=
  { server_port := [], domain := domain, entity := entity }

/-- Embeds `addressToString` from src/gateway/types.ts.  The JS falsiness
test `!addr.server_port` on a string is emptiness. -/
def addressToString (addr : Address) : LStr :=
  if addr.server_port = [] ∧ addr.domain = [] ∧ addr.entity = [] then []
  else if addr.server_port = [] then '/' :: addr.domain ++ '/' :: addr.entity
  else addr.server_port ++ '/' :: addr.domain ++ '/' :: addr.entity

/-- JS `String.prototype.split` with a single-character separator:
`"".split(c) = [""]`, separators delimit (possibly empty) fields. -/
def splitOnChar (c : Char) : LStr → List LStr
  | [] => [[]]
  | x :: xs =>
    if x = c then [] :: splitOnChar c xs
    else
      match splitOnChar c xs with
      | [] => [[x]]
      | y :: ys => (x :: y) :: ys

/-- Embeds `parseAddress` from src/gateway/types.ts.  The `throw` is
modelled as `Except.error`. -/
def parseAddress (s : LStr) : Except LStr Address :=
  if s = [] then .ok { server_port := [], domain := "AGENT".data, entity := [] }
  else
    let parts := splitOnChar '/' s
    if s.head? = some '/' ∧ parts.length = 3 then
      .ok { server_port := [], domain := parts[1]!, entity := parts[2]! }
    else if parts.length = 3 then
      .ok { server_port := parts[0]!, domain := parts[1]!, entity := parts[2]! }
    else .error ("Invalid address format: ".data ++ s)

/-- Well-formedness of an `Address` as stated by claim C1: the domain is one
of the six `AddressDomain` values, the entity is a non-empty UUID (UUIDs
contain no slash), and `server_port` is either empty or a host:port string
containing no `/`. -/
def WellFormedAddress (a : Address) : Prop :=
  a.domain ∈ addressDomains ∧ a.entity ≠ [] ∧ '/' ∉ a.entity ∧ '/' ∉ a.server_port

-- ===========================================================================
-- src/crypto/signing.ts : canonicalize, getFragmentSignablePayload
-- ===========================================================================

/-- JSON values as produced by the tool layer.  Objects are ordered field
lists, matching JS objects whose (non-numeric) keys enumerate in insertion
order; `JSON.stringify` serializes them in exactly that order.  Numeric
literals are carried as their JS decimal string representation. -/
inductive JVal where
  | jstr (s : LStr)
  | jnum (lit : LStr)
  | jbool (b : Bool)
  | jnull
  | jarr (elems : List JVal)
  | jobj (fields : List (LStr × JVal))

/-- Opening brace character (spelled via its code point). -/
def braceL : Char := Char.ofNat 123

/-- Closing brace character (spelled via its code point). -/
def braceR : Char := Char.ofNat 125

/-- JSON string escaping as done by `JSON.stringify`: quotes and backslashes
are escaped (the strings appearing in this development contain no control
characters, so control-character escapes are not modelled). -/
def jsonEscapeChar (c : Char) : LStr :=
  if c = '"' then ['\\', '"']
  else if c = '\\' then ['\\', '\\']
  else [c]

/-- A JSON-quoted string: `"…"` with escaping. -/
def jsonQuote (s : LStr) : LStr :=
  '"' :: (s.map jsonEscapeChar).flatten ++ ['"']

mutual

/-- `JSON.stringify` with no extra whitespace, on the `JVal` model.  Object
fields are serialized in their stored (insertion) order. -/
def stringify : JVal → LStr
  | .jstr s => jsonQuote s
  | .jnum lit => lit
  | .jbool b => if b then "true".data else "false".data
  | .jnull => "null".data
  | .jarr elems => '[' :: stringifyArr elems ++ [']']
  | .jobj fields => braceL :: stringifyObj fields ++ [braceR]

/-- Comma-separated serialization of array elements. -/
def stringifyArr : List JVal → LStr
  | [] => []
  | [v] => stringify v
  | v :: w :: rest => stringify v ++ ',' :: stringifyArr (w :: rest)

/-- Comma-separated serialization of `"key":value` object fields. -/
def stringifyObj : List (LStr × JVal) → LStr
  | [] => []
  | [(k, v)] => jsonQuote k ++ ':' :: stringify v
  | (k, v) :: e :: rest => jsonQuote k ++ ':' :: stringify v ++ ',' :: stringifyObj (e :: rest)

end

/-- Lexicographic comparison of strings by code point, as used by JS
`Array.prototype.sort()` on `Object.keys` (ASCII keys, so code-unit order
coincides with code-point order). -/
def lexLe : LStr → LStr → Bool
  | [], _ => true
  | _ :: _, [] => false
  | a :: as, b :: bs => if a = b then lexLe as bs else decide (a < b)

/-- JS property lookup `obj[key]` on the ordered-field model (keys of a JS
object are unique, so the first match is the match). -/
def assocLookup {α : Type} (k : LStr) : List (LStr × α) → Option α
  | [] => none
  | (k2, v) :: rest => if k2 = k then some v else assocLookup k rest

/-- Embeds `canonicalize` from src/crypto/signing.ts: sorts the TOP-LEVEL
keys lexicographically, rebuilds the object in that key order, and
`JSON.stringify`s it.  Nested objects are serialized in their own stored
field order (`JSON.stringify` does not re-sort them). -/
def canonicalize (fields : List (LStr × JVal)) : LStr :=
  let sortedKeys := (fields.map Prod.fst).mergeSort lexLe
  stringify (.jobj (sortedKeys.map (fun k => (k, (assocLookup k fields).getD .jnull))))

/-- JS `x || default` on an optional string: `undefined` and `""` are falsy. -/
def orFalsyStr (o : Option LStr) (d : LStr) : LStr :=
  match o with
  | none => d
  | some s => if s = [] then d else s

/-- The fields of a `CreateFragmentRequest` (minus `signature`) as they reach
`getFragmentSignablePayload`.  Address-valued fields (`creator`, `tags`
entries, `transform`) are kept as `JVal` objects because their serialized
field order is whatever order the fields were inserted in at the
construction site. -/
structure CreateFragmentSignable where
  uuid : LStr
  content : LStr
  creator : JVal
  when : LStr
  tags : Option (List JVal)
  transform : Option JVal
  confidence : Option LStr
  evidence_type : Option LStr

/-- Embeds `getFragmentSignablePayload` from src/crypto/signing.ts, with its
default substitutions: `tags || []`, `transform || null`,
`confidence ?? 0.5`, `evidence_type || 'unknown'`. -/
def getFragmentSignablePayload (fragment : CreateFragmentSignable) : LStr :=
  canonicalize [
    ("uuid".data, .jstr fragment.uuid),
    ("content".data, .jstr fragment.content),
    ("creator".data, fragment.creator),
    ("when".data, .jstr fragment.when),
    ("tags".data, .jarr (fragment.tags.getD [])),
    ("transform".data, fragment.transform.getD .jnull),
    ("confidence".data, .jnum (fragment.confidence.getD ("0.5".data))),
    ("evidence_type".data, .jstr (orFalsyStr fragment.evidence_type ("unknown".data)))]

/-- An `Address` written as a JS object literal in the field order used by
`createLocalAddress` / `createHubAddress`. -/
def addressToJVal (a : Address) : JVal :=
  .jobj [("server_port".data, .jstr a.server_port),
         ("domain".data, .jstr a.domain),
         ("entity".data, .jstr a.entity)]

/-- A creator `Address` object with fields in declaration order
(`server_port`, `domain`, `entity`). -/
def creatorFieldsA : List (LStr × JVal) :=
  [("server_port".data, .jstr []),
   ("domain".data, .jstr ("AGENT".data)),
   ("entity".data, .jstr ("11111111-1111-1111-1111-111111111111".data))]

/-- The same logical creator `Address` with its fields permuted
(`domain`, `entity`, `server_port`). -/
def creatorFieldsB : List (LStr × JVal) :=
  [("domain".data, .jstr ("AGENT".data)),
   ("entity".data, .jstr ("11111111-1111-1111-1111-111111111111".data)),
   ("server_port".data, .jstr [])]

/-- A fragment whose `creator` address uses field order A. -/
def fragSignableA : CreateFragmentSignable :=
  { uuid := "22222222-2222-2222-2222-222222222222".data
    content := "water is wet".data
    creator := .jobj creatorFieldsA
    when := "2025-01-01T00:00:00.000Z".data
    tags := some []
    transform := none
    confidence := some ("0.8".data)
    evidence_type := some ("empirical".data) }

/-- The same logical fragment, but with the nested `creator` address fields
permuted. -/
def fragSignableB : CreateFragmentSignable :=
  { fragSignableA with creator := .jobj creatorFieldsB }

-- ===========================================================================
-- src/gateway/types.ts : RelationType, Relation
-- ===========================================================================

/-- The `RelationType` enum from src/gateway/types.ts. -/
inductive RelationType where
  | TRUST | SUPPORTS | CONTRADICTS | EXTENDS | SUPERSEDES | DERIVED_FROM
  | RELATED_TO | EXAMPLE_OF | SPECIALIZES | CLARIFIES | GENERALIZES
deriving DecidableEq, Repr

/-- Embeds the `Relation` wire entity from src/gateway/types.ts (the
database-managed `created_at` column is not relevant to any claim and is
omitted).  `confidence` is optional on the wire, hence `Option ℚ`. -/
structure Relation where
  uuid : LStr
  «from» : Address
  «to» : Address
  «by» : Address
  type : RelationType
  content : Option LStr
  creator : Address
  version : Int
  when : LStr
  signature : LStr
  confidence : Option ℚ
deriving DecidableEq, Repr

/-- A relation with only the fields that matter to the analysis tools set;
the remaining fields take fixed placeholder values. -/
def mkRelation (fromEnt toEnt : LStr) (ty : RelationType) (conf : Option ℚ) : Relation :=
  { uuid := []
    «from» := createLocalAddress ("FRAGMENT".data) fromEnt
    «to» := createLocalAddress ("FRAGMENT".data) toEnt
    «by» := createLocalAddress ("AGENT".data) []
    type := ty
    content := none
    creator := createLocalAddress ("AGENT".data) []
    version := 1
    when := []
    signature := []
    confidence := conf }

-- ===========================================================================
-- src/tools/validity.ts : calculateEvidenceBalance and the evidence verdict
-- ===========================================================================

/-- Embeds the `EvidenceBalance` record from src/tools/validity.ts;
`supporting`/`contradicting` hold `(fragment_id, confidence)` pairs. -/
structure EvidenceBalance where
  thesis_id : LStr
  supporting : List (LStr × ℚ)
  contradicting : List (LStr × ℚ)
  support_score : ℚ
  contradict_score : ℚ
  net_score : ℚ
deriving DecidableEq, Repr

/-- One step of the `for (const relation of relations)` loop body of
`calculateEvidenceBalance`. -/
def evidenceStep (thesisId : LStr) (balance : EvidenceBalance) (relation : Relation) :
    EvidenceBalance :=
  if relation.«to».entity = thesisId then
    let confidence := relation.confidence.getD 1
    if relation.type = RelationType.SUPPORTS then
      { balance with
        supporting := balance.supporting ++ [(relation.«from».entity, confidence)]
        support_score := balance.support_score + confidence }
    else if relation.type = RelationType.CONTRADICTS then
      { balance with
        contradicting := balance.contradicting ++ [(relation.«from».entity, confidence)]
        contradict_score := balance.contradict_score + confidence }
    else balance
  else balance

/-- Embeds `calculateEvidenceBalance` from src/tools/validity.ts:
a single pass over `relations`, then `net_score = support - contradict`. -/
def calculateEvidenceBalance (thesisId : LStr) (relations : List Relation) :
    EvidenceBalance :=
  let balance := relations.foldl (evidenceStep thesisId)
    { thesis_id := thesisId, supporting := [], contradicting := []
      support_score := 0, contradict_score := 0, net_score := 0 }
  { balance with net_score := balance.support_score - balance.contradict_score }

/-- The three verdict strings of the `wisdom_get_evidence_balance` handler. -/
inductive Verdict where
  | well_supported | contested | neutral
deriving DecidableEq, Repr

/-- The verdict ternary of the `wisdom_get_evidence_balance` handler:
`net_score > 0.5 ? well_supported : net_score < -0.5 ? contested : neutral`
(computed on the unrounded `net_score`). -/
def evidenceVerdict (net_score : ℚ) : Verdict :=
  if net_score > 0.5 then .well_supported
  else if net_score < -0.5 then .contested
  else .neutral

/-- The two relations of the claim-C3 example: a SUPPORTS edge with
confidence 0.8 and a CONTRADICTS edge with confidence 0.3, both targeting
thesis fragment `F`. -/
def c3ExampleRelations : List Relation :=
  [mkRelation ("S1".data) ("F".data) RelationType.SUPPORTS (some 0.8),
   mkRelation ("S2".data) ("F".data) RelationType.CONTRADICTS (some 0.3)]

-- ===========================================================================
-- src/tools/validity.ts : wisdom_check_derivation_chain
-- ===========================================================================

/-- The `ChainValidity` union type of src/tools/validity.ts. -/
inductive ChainValidity where
  | valid | conditional | contested | broken
deriving DecidableEq, Repr

/-- The `IssueType` union type of src/tools/validity.ts. -/
inductive IssueType where
  | missing_reference | contested_premise | low_confidence
  | unverified_source | circular_dependency
deriving DecidableEq, Repr

/-- The `ValidityIssue` record of src/tools/validity.ts. -/
structure ValidityIssue where
  fragment_id : LStr
  issue_type : IssueType
  description : LStr
  severity : ℚ
deriving DecidableEq, Repr

/-- One entry of the `chain` array built by the traversal. -/
structure ChainEntry where
  fragment_id : LStr
  depth : Nat
  derives_from : List LStr
deriving DecidableEq, Repr

/-- The mutable state closed over by `traverseChain`: the `visited` set (a JS
`Set`, modelled as the insertion-ordered list of its elements), the `chain`
array and the `issues` array. -/
structure TraverseState where
  visited : List LStr
  chain : List ChainEntry
  issues : List ValidityIssue
deriving DecidableEq, Repr

/-- The `circular_dependency` issue pushed on revisiting a fragment. -/
def circularIssue (fragId : LStr) : ValidityIssue :=
  { fragment_id := fragId
    issue_type := .circular_dependency
    description := "Circular dependency detected at fragment ".data ++ fragId
    severity := 1 }

/-- The `missing_reference` issue pushed when a claimed source cannot be
fetched. -/
def missingIssue (fragId sourceId : LStr) : ValidityIssue :=
  { fragment_id := fragId
    issue_type := .missing_reference
    description := "Fragment ".data ++ fragId ++
      " derives from non-existent fragment ".data ++ sourceId
    severity := 1 }

/-- `derivesFrom`: the targets of the DERIVED_FROM relations whose source is
`fragId`, in relation-list order. -/
def derivedFromTargets (relationsData : List Relation) (fragId : LStr) : List LStr :=
  (relationsData.filter (fun r =>
    decide (r.«from».entity = fragId ∧ r.type = RelationType.DERIVED_FROM))).map
    (fun r => r.«to».entity)

/-- The body of one non-returning `traverseChain` step: mark visited, push the
chain entry, then record a `missing_reference` issue for every
`derives_from` target the gateway cannot fetch (`gatewayHas` models
`gateway.getFragment` succeeding), in source order. -/
def traverseVisit (gatewayHas : LStr → Bool) (relationsData : List Relation)
    (fragId : LStr) (depth : Nat) (st : TraverseState) : TraverseState :=
  let st1 : TraverseState := { st with visited := st.visited ++ [fragId] }
  let derivesFrom := derivedFromTargets relationsData fragId
  let st2 : TraverseState := { st1 with chain := st1.chain ++
    [{ fragment_id := fragId, depth := depth, derives_from := derivesFrom }] }
  { st2 with issues := st2.issues ++
    ((derivesFrom.filter (fun s => ! gatewayHas s)).map (missingIssue fragId)) }

/-- Embeds the recursive `traverse` of the `wisdom_check_derivation_chain`
handler (named `traverseChain` here because Mathlib already exports a
`traverse`).  The JS recursion terminates because `depth` grows by one per call
and the function returns as soon as `depth > maxDepth`; this is made
structural through the fuel `gas`, which every call site supplies as
`maxDepth + 1 - depth` (so the `gas = 0` fallback is unreachable; see
`traverse_gas_irrelevant`).  On entry (`depth > maxDepth` or already
visited) the source records a `circular_dependency` issue exactly when the
fragment was already visited, then returns. -/
def traverseChain (gatewayHas : LStr → Bool) (relationsData : List Relation) (maxDepth : Nat) :
    Nat → LStr → Nat → TraverseState → TraverseState
  | gas, fragId, depth, st =>
    if depth > maxDepth ∨ fragId ∈ st.visited then
      if fragId ∈ st.visited then
        { st with issues := st.issues ++ [circularIssue fragId] }
      else st
    else
      match gas with
      | 0 => st
      | gas' + 1 =>
        (derivedFromTargets relationsData fragId).foldl
          (fun acc sourceId =>
            traverseChain gatewayHas relationsData maxDepth gas' sourceId (depth + 1) acc)
          (traverseVisit gatewayHas relationsData fragId depth st)

/-- The handler's `max_depth` defaulting `(args.max_depth as number) || 10`:
absent and `0` (JS falsy) both become 10. -/
def resolveMaxDepth (maxDepthArg : Option Nat) : Nat :=
  match maxDepthArg with
  | none => 10
  | some n => if n = 0 then 10 else n

/-- The result record of the `wisdom_check_derivation_chain` handler. -/
structure DerivationChainReport where
  fragment_id : LStr
  validity : ChainValidity
  chain_depth : Nat
  derivation_chain : List ChainEntry
  issues : List ValidityIssue
deriving DecidableEq, Repr

/-- Embeds the `wisdom_check_derivation_chain` handler: run the traversal
from the root at depth 0 with empty state, then `validity = broken` iff some
recorded issue is a `missing_reference` or a `circular_dependency`, else
`valid`. -/
def checkDerivationChain (gatewayHas : LStr → Bool) (relationsData : List Relation)
    (fragmentId : LStr) (maxDepthArg : Option Nat) : DerivationChainReport :=
  let maxDepth := resolveMaxDepth maxDepthArg
  let st := traverseChain gatewayHas relationsData maxDepth (maxDepth + 1) fragmentId 0
    { visited := [], chain := [], issues := [] }
  let validity : ChainValidity :=
    if st.issues.any (fun i =>
        decide (i.issue_type = .missing_reference ∨ i.issue_type = .circular_dependency))
    then .broken else .valid
  { fragment_id := fragmentId
    validity := validity
    chain_depth := st.chain.length
    derivation_chain := st.chain
    issues := st.issues }

/-- Membership test used to model which fragment ids the gateway can fetch. -/
def gatewayOf (ids : List LStr) : LStr → Bool :=
  fun s => decide (s ∈ ids)

/-- One step of the DERIVED_FROM graph: `a` derives from `b`. -/
def derivedFromStep (rels : List Relation) (a b : LStr) : Bool :=
  rels.any (fun r =>
    decide (r.«from».entity = a ∧ r.type = RelationType.DERIVED_FROM ∧ r.«to».entity = b))

/-- All entity ids mentioned by a relation list. -/
def relNodes (rels : List Relation) : List LStr :=
  rels.map (fun r => r.«from».entity) ++ rels.map (fun r => r.«to».entity)

/-- `a` reaches `b` through 1 to `n+1` DERIVED_FROM steps. -/
def reachesWithin (rels : List Relation) : Nat → LStr → LStr → Bool
  | 0, a, b => derivedFromStep rels a b
  | n + 1, a, b =>
    derivedFromStep rels a b ||
      (relNodes rels).any (fun m => derivedFromStep rels a m && reachesWithin rels n m b)

/-- The DERIVED_FROM graph has a directed cycle (some node reaches itself in
at least one step; path lengths are bounded by the node count). -/
def hasDerivationCycle (rels : List Relation) : Bool :=
  (relNodes rels).any (fun v => reachesWithin rels (relNodes rels).length v v)

/-- The cyclic chain A→B→C→A of claim C4 (each relation `X DERIVED_FROM Y`
has `from = X`, `to = Y`). -/
def cycleRelations : List Relation :=
  [mkRelation ("A".data) ("B".data) RelationType.DERIVED_FROM none,
   mkRelation ("B".data) ("C".data) RelationType.DERIVED_FROM none,
   mkRelation ("C".data) ("A".data) RelationType.DERIVED_FROM none]

/-- D derives from the non-existent X1 and X2 and from the existing Y. -/
def missingRefRelations : List Relation :=
  [mkRelation ("D".data) ("X1".data) RelationType.DERIVED_FROM none,
   mkRelation ("D".data) ("X2".data) RelationType.DERIVED_FROM none,
   mkRelation ("D".data) ("Y".data) RelationType.DERIVED_FROM none]

/-- A straight 5-fragment chain E0→E1→E2→E3→E4, to be traversed with
`max_depth = 2`. -/
def deepChainRelations : List Relation :=
  [mkRelation ("E0".data) ("E1".data) RelationType.DERIVED_FROM none,
   mkRelation ("E1".data) ("E2".data) RelationType.DERIVED_FROM none,
   mkRelation ("E2".data) ("E3".data) RelationType.DERIVED_FROM none,
   mkRelation ("E3".data) ("E4".data) RelationType.DERIVED_FROM none]

/-- The acyclic diamond of claim C10: R derives from B and C, and both B
and C derive from D. -/
def diamondRelations : List Relation :=
  [mkRelation ("R".data) ("B".data) RelationType.DERIVED_FROM none,
   mkRelation ("R".data) ("C".data) RelationType.DERIVED_FROM none,
   mkRelation ("B".data) ("D".data) RelationType.DERIVED_FROM none,
   mkRelation ("C".data) ("D".data) RelationType.DERIVED_FROM none]

-- ===========================================================================
-- src/tools/validity.ts : wisdom_load_context_for_task
-- ===========================================================================

/-- The `TrustSummary` record of src/gateway/types.ts. -/
structure TrustSummary where
  score : ℚ
  votes_count : Int
  verifications : Int
  contestations : Int
deriving DecidableEq, Repr

/-- The slice of a gateway search-result `Fragment` used by
`wisdom_load_context_for_task` (`confidence` and `trust_summary` are
optional on the wire). -/
structure SearchFragment where
  uuid : LStr
  content : LStr
  confidence : Option ℚ
  evidence_type : Option LStr
  trust_summary : Option TrustSummary
deriving DecidableEq, Repr

/-- The handler's relevance score
`((f.trust_summary?.score ?? 0) + 1) / 2 * (f.confidence ?? 0.5)`. -/
def relevance_score (f : SearchFragment) : ℚ :=
  ((f.trust_summary.map TrustSummary.score).getD 0 + 1) / 2 * (f.confidence.getD 0.5)

/-- JS `(x as number) || default` on an optional numeric argument:
`undefined` and `0` are falsy and yield the default. -/
def orFalsyNum (o : Option ℚ) (d : ℚ) : ℚ :=
  match o with
  | none => d
  | some q => if q = 0 then d else q

/-- The handler's token-budget loop: walk the ranked list accumulating
`content.length + 100` chars per fragment and `break` at the first fragment
that would push the total past `budgetChars` (`token_budget * 4`). -/
def loadContextSelect (budgetChars : ℚ) : List SearchFragment → ℚ → List SearchFragment
  | [], _ => []
  | f :: rest, totalChars =>
    let fragChars : ℚ := (f.content.length : ℚ) + 100
    if totalChars + fragChars > budgetChars then []
    else f :: loadContextSelect budgetChars rest (totalChars + fragChars)

/-- Embeds the post-search part of the `wisdom_load_context_for_task`
handler: default the arguments (JS `|| 10000` and `|| 0.3`), filter by
`(confidence ?? 0.5) >= min_confidence`, sort descending by relevance
(`sort((a, b) => b.relevance_score - a.relevance_score)` — a stable
descending sort, modelled by `mergeSort` with `relevance b ≤ relevance a`),
then greedily select within the character budget. -/
def loadContextForTask (searchData : List SearchFragment)
    (tokenBudgetArg minConfidenceArg : Option ℚ) : List SearchFragment :=
  let tokenBudget := orFalsyNum tokenBudgetArg 10000
  let minConfidence := orFalsyNum minConfidenceArg 0.3
  let filtered := searchData.filter (fun f => decide (f.confidence.getD 0.5 ≥ minConfidence))
  let ranked := filtered.mergeSort (fun a b => decide (relevance_score b ≤ relevance_score a))
  loadContextSelect (tokenBudget * 4) ranked 0

/-- A fragment with confidence 0.5 and no trust summary (relevance 1/4). -/
def tieFragA : SearchFragment :=
  { uuid := "a".data, content := "alpha".data, confidence := some 0.5
    evidence_type := none, trust_summary := none }

/-- A second fragment with the same relevance 1/4. -/
def tieFragB : SearchFragment :=
  { uuid := "b".data, content := "beta".data, confidence := some 0.5
    evidence_type := none, trust_summary := none }

-- ===========================================================================
-- src/server.ts : AddressCache (LRU)
-- ===========================================================================

/-- Modelled from the spec: `createHubAddress` is imported by src/server.ts
from gateway/types but its definition is not among the provided sources; per
spec §4.2 the cache-miss fallback synthesizes a hub-qualified address from
the configured hub host plus the given domain and uuid. -/
def createHubAddress (hubHost : LStr) (domain : LStr) (entity : LStr) : Address :=
  { server_port := hubHost, domain := domain, entity := entity }

/-- Embeds `AddressCache` from src/server.ts.  The backing JS `Map` is
modelled as its entry list in insertion order (`Map` preserves insertion
order; `keys().next().value` is the first, least recently used, key). -/
structure AddressCache where
  entries : List (LStr × Address)
  maxSize : Nat
deriving DecidableEq, Repr

/-- `new AddressCache()` (constructor default `maxSize = 5000`). -/
def AddressCache.new : AddressCache :=
  { entries := [], maxSize := 5000 }

/-- `Map.has` on the entry-list model. -/
def AddressCache.hasKey (c : AddressCache) (uuid : LStr) : Bool :=
  c.entries.any (fun e => decide (e.1 = uuid))

/-- Embeds `AddressCache.put`: delete any existing entry for the uuid (to
refresh insertion order), insert at the end, then if over capacity delete
the first key — guarded by the JS truthiness test `if (firstKey)`, which
skips `undefined` and the empty string. -/
def AddressCache.put (c : AddressCache) (uuid : LStr) (addr : Address) : AddressCache :=
  let entries1 := if c.hasKey uuid
    then c.entries.eraseP (fun e => decide (e.1 = uuid)) else c.entries
  let entries2 := entries1 ++ [(uuid, addr)]
  if entries2.length > c.maxSize then
    match entries2.head? with
    | some e0 =>
      if e0.1 ≠ [] then { c with entries := entries2.eraseP (fun e => decide (e.1 = e0.1)) }
      else { c with entries := entries2 }
    | none => { c with entries := entries2 }
  else { c with entries := entries2 }

/-- Embeds `AddressCache.get`: on a hit, move the entry to the end (most
recently used) and return the cached address unchanged; on a miss, build a
hub address when a (truthy) hub host is configured, else a local address —
without touching the cache.  Returns (updated cache, address). -/
def AddressCache.get (c : AddressCache) (uuid : LStr) (domain : LStr)
    (hubHost : Option LStr) : AddressCache × Address :=
  match c.entries.find? (fun e => decide (e.1 = uuid)) with
  | some e =>
    ({ c with entries := c.entries.eraseP (fun e2 => decide (e2.1 = uuid)) ++ [(uuid, e.2)] },
      e.2)
  | none =>
    (c, match hubHost with
        | some h => if h = [] then createLocalAddress domain uuid
                    else createHubAddress h domain uuid
        | none => createLocalAddress domain uuid)

/-- Well-formedness maintained by the cache in the server: keys are unique
(a JS `Map` property) and non-empty (every call site passes a UUID). -/
def CacheWF (c : AddressCache) : Prop :=
  (c.entries.map Prod.fst).Nodup ∧ ∀ k ∈ c.entries.map Prod.fst, k ≠ []

/-- An empty capacity-3 cache for the concrete LRU scenarios. -/
def demoCache0 : AddressCache := { entries := [], maxSize := 3 }

/-- The cache after inserting u1, u2, u3 into the capacity-3 cache. -/
def demoAfterPuts : AddressCache :=
  ((demoCache0.put ("u1".data) (createLocalAddress ("AGENT".data) ("u1".data))).put
    ("u2".data) (createLocalAddress ("AGENT".data) ("u2".data))).put
    ("u3".data) (createLocalAddress ("AGENT".data) ("u3".data))

/-- The same cache after additionally touching u1 via `get` (refreshing its
recency) and then inserting a fourth distinct uuid u4. -/
def demoAfterGetThenPut : AddressCache :=
  ((demoAfterPuts.get ("u1".data) ("AGENT".data) none).1).put
    ("u4".data) (createLocalAddress ("AGENT".data) ("u4".data))

-- ===========================================================================
-- src/transformer-presets.ts : PRESETS, TYPE_TO_PRESET, selectPreset
-- ===========================================================================

/-- The static metadata of a `TransformPreset`.  The long natural-language
`encode_instructions` / `decode_instructions` fields are free text consumed
only by the LLM delegation layer and are referenced by no claim, so they are
omitted from the embedding. -/
structure TransformPreset where
  name : LStr
  description : LStr
  transform_to : LStr
  transform_from : LStr
  expected_compression : ℚ
  expected_quality : ℚ
deriving DecidableEq, Repr

/-- The four keys of the `PRESETS` record. -/
def presetKeys : List LStr :=
  ["t1-symbolic".data, "t3-compact".data, "t4-hybrid".data, "baseline".data]

/-- Embeds the `PRESETS` record (key → preset metadata). -/
def PRESETS : LStr → Option TransformPreset := fun key =>
  if key = "t1-symbolic".data then some
    { name := "wisdom-t1-symbolic".data
      description := ("S-Expression encoding. 39% compression, 4.58/5 quality. " ++
        "Best for definitions and procedures.").data
      transform_to := "application/x-sexp".data
      transform_from := "text/plain".data
      expected_compression := 0.39
      expected_quality := 4.58 }
  else if key = "t3-compact".data then some
    { name := "wisdom-t3-compact".data
      description := ("Compact schema encoding. 56% compression, 3.83/5 quality. " ++
        "Highest compression, best for factual data.").data
      transform_to := "application/x-compact-schema".data
      transform_from := "text/plain".data
      expected_compression := 0.56
      expected_quality := 3.83 }
  else if key = "t4-hybrid".data then some
    { name := "wisdom-t4-hybrid".data
      description := ("Natural language + structured metadata. 24% compression, " ++
        "5.0/5 quality. Best for nuanced content.").data
      transform_to := "application/x-hybrid".data
      transform_from := "text/plain".data
      expected_compression := 0.24
      expected_quality := 5.0 }
  else if key = "baseline".data then some
    { name := "wisdom-baseline".data
      description := ("Plain English natural language. No compression, perfect " ++
        "quality. Default when no encoding needed.").data
      transform_to := "text/plain".data
      transform_from := "text/plain".data
      expected_compression := 0
      expected_quality := 5.0 }
  else none

/-- The `expected_compression` of a preset key (0 for an unknown key). -/
def expectedCompressionOf (key : LStr) : ℚ :=
  ((PRESETS key).map TransformPreset.expected_compression).getD 0

/-- Embeds the `TYPE_TO_PRESET` record as an ordered association list. -/
def TYPE_TO_PRESET : List (LStr × LStr) :=
  [("DEFINITION".data, "t1-symbolic".data),
   ("PROCEDURE".data, "t1-symbolic".data),
   ("FACT".data, "t3-compact".data),
   ("OBSERVATION".data, "t3-compact".data),
   ("HYPOTHESIS".data, "t4-hybrid".data),
   ("SYNTHESIS".data, "t4-hybrid".data),
   ("INSIGHT".data, "t4-hybrid".data),
   ("OPINION".data, "t4-hybrid".data),
   ("QUESTION".data, "baseline".data),
   ("ANSWER".data, "baseline".data),
   ("EXAMPLE".data, "baseline".data),
   ("ANTITHESIS".data, "t4-hybrid".data)]

/-- Embeds `selectPreset` from src/transformer-presets.ts: pressure above
0.7 upgrades HYPOTHESIS/SYNTHESIS/INSIGHT to `t1-symbolic` and sends every
other type to `t3-compact`; pressure below 0.3 uses the type mapping with
fallback `t4-hybrid`; otherwise the type mapping with fallback
`t1-symbolic`. -/
def selectPreset (fragmentType : LStr) (contextPressure : ℚ) : LStr :=
  if contextPressure > 0.7 then
    if fragmentType = "HYPOTHESIS".data ∨ fragmentType = "SYNTHESIS".data ∨
        fragmentType = "INSIGHT".data then
      "t1-symbolic".data
    else
      "t3-compact".data
  else if contextPressure < 0.3 then
    (assocLookup fragmentType TYPE_TO_PRESET).getD ("t4-hybrid".data)
  else
    (assocLookup fragmentType TYPE_TO_PRESET).getD ("t1-symbolic".data)

-- ===========================================================================
-- src/tools/fragments.ts : wisdom_create_fragment handler
-- ===========================================================================

/-- The slice of a gateway `Fragment` response used by the handler. -/
structure GatewayFragment where
  uuid : LStr
  content : LStr
  creator : Address
  when : LStr
  state : Option LStr
deriving DecidableEq, Repr

/-- The `CreateFragmentRequest` wire object (optional wire fields kept
optional; the handler fills them all in). -/
structure CreateFragmentRequest where
  uuid : LStr
  content : LStr
  creator : Address
  when : LStr
  signature : LStr
  tags : Option (List Address)
  transform : Option Address
  confidence : Option ℚ
  evidence_type : Option LStr
deriving DecidableEq, Repr

/-- A network call made through the gateway client. -/
inductive GatewayCall where
  | createFragment (req : CreateFragmentRequest) (project : Option LStr)
deriving DecidableEq, Repr

/-- The parts of the shared `ServerContext` read by the handler:
`keyManager.getPrivateKey()` succeeds iff a key is configured, and the
config fields may each be absent. -/
structure FragmentToolContext where
  privateKey : Option LStr
  agent_uuid : Option LStr
  hub_host : Option LStr
  current_project : Option LStr
  addressCache : AddressCache
deriving DecidableEq, Repr

/-- The `wisdom_create_fragment` tool arguments. -/
structure CreateFragmentArgs where
  content : LStr
  project : Option LStr
  source_transform : Option LStr
deriving DecidableEq, Repr

/-- The handler's JSON result object. -/
structure CreateFragmentResult where
  uuid : LStr
  content : LStr
  creator : LStr
  when : LStr
  state : Option LStr
deriving DecidableEq, Repr

/-- What a handler invocation produced: its result (or thrown error), the
gateway calls it made, and the address cache it left behind. -/
structure HandlerOutcome where
  result : Except LStr CreateFragmentResult
  gatewayCalls : List GatewayCall
  cache : AddressCache
deriving Repr

/-- JS `a || b` on two optional strings (`undefined` and `""` falsy). -/
def orFalsyOptStr (o : Option LStr) (d : Option LStr) : Option LStr :=
  match o with
  | none => d
  | some s => if s = [] then d else some s

/-- Embeds `cacheFragment` from src/tools/fragments.ts: cache the returned
fragment address under the FRAGMENT domain (`f.creator` is a required
object, hence always truthy; `f.uuid` is tested for truthiness). -/
def cacheFragment (f : GatewayFragment) (cache : AddressCache) : AddressCache :=
  if f.uuid ≠ [] then
    cache.put f.uuid
      { server_port := f.creator.server_port, domain := "FRAGMENT".data, entity := f.uuid }
  else cache

/-- Embeds the `wisdom_create_fragment` handler.  External effects are
explicit parameters: `gatewayCreateFragment` is the gateway client,
`signMessage` the Ed25519 primitive applied to the canonical payload,
`freshUuid` the `uuidv4()` draw and `nowIso` the clock.  The typed outcome
records every gateway call made and the final cache state. -/
def wisdomCreateFragmentHandler (ctx : FragmentToolContext)
    (gatewayCreateFragment : CreateFragmentRequest → Option LStr → Except LStr GatewayFragment)
    (signMessage : LStr → LStr) (freshUuid nowIso : LStr)
    (args : CreateFragmentArgs) : HandlerOutcome :=
  match ctx.privateKey with
  | none =>
    { result := .error ("No private key configured. Run wisdom_generate_keypair first.".data)
      gatewayCalls := []
      cache := ctx.addressCache }
  | some _ =>
    match ctx.agent_uuid with
    | none =>
      { result := .error ("No agent configured. Run wisdom_generate_keypair first.".data)
        gatewayCalls := []
        cache := ctx.addressCache }
    | some agentUuid =>
      let projectUUID := orFalsyOptStr args.project ctx.current_project
      match args.source_transform with
      | none =>
        { result := .error (("source_transform is required. Every fragment must " ++
            "reference a transform that produced it. Create a transform first with " ++
            "wisdom_create_transform.").data)
          gatewayCalls := []
          cache := ctx.addressCache }
      | some sourceTransform =>
        if sourceTransform = [] then
          { result := .error (("source_transform is required. Every fragment must " ++
              "reference a transform that produced it. Create a transform first with " ++
              "wisdom_create_transform.").data)
            gatewayCalls := []
            cache := ctx.addressCache }
        else
          let got1 := ctx.addressCache.get agentUuid ("AGENT".data) ctx.hub_host
          let got2 := got1.1.get sourceTransform ("TRANSFORMATION".data) ctx.hub_host
          let creatorAddr := got1.2
          let transformAddr := got2.2
          let payload := getFragmentSignablePayload
            { uuid := freshUuid
              content := args.content
              creator := addressToJVal creatorAddr
              when := nowIso
              tags := some []
              transform := some (addressToJVal transformAddr)
              confidence := some ("0.8".data)
              evidence_type := some ("unknown".data) }
          let req : CreateFragmentRequest :=
            { uuid := freshUuid
              content := args.content
              creator := creatorAddr
              when := nowIso
              signature := signMessage payload
              tags := some []
              transform := some transformAddr
              confidence := some 0.8
              evidence_type := some ("unknown".data) }
          match gatewayCreateFragment req projectUUID with
          | .error e =>
            { result := .error e
              gatewayCalls := [.createFragment req projectUUID]
              cache := got2.1 }
          | .ok fragment =>
            { result := .ok
                { uuid := fragment.uuid
                  content := fragment.content
                  creator := addressToString fragment.creator
                  when := fragment.when
                  state := fragment.state }
              gatewayCalls := [.createFragment req projectUUID]
              cache := cacheFragment fragment got2.1 }

-- ===========================================================================
-- ======================  THEOREMS (claims C1 .. C10)  ======================
-- ===========================================================================

-- ---------------------------------------------------------------------------
-- Theorems for C1
-- ---------------------------------------------------------------------------

theorem splitOnChar_of_not_mem {c : Char} {xs : LStr} (h : c ∉ xs) :
    splitOnChar c xs = [xs] := by
  induction xs with
  | nil => rfl
  | cons a as ih =>
    have ha : a ≠ c := fun hac => h (hac ▸ List.mem_cons_self a as)
    have h' : c ∉ as := fun hc => h (List.mem_cons_of_mem a hc)
    simp [splitOnChar, ha, ih h']

theorem splitOnChar_append {c : Char} {xs : LStr} (ys : LStr) (h : c ∉ xs) :
    splitOnChar c (xs ++ c :: ys) = xs :: splitOnChar c ys := by
  induction xs with
  | nil => simp [splitOnChar]
  | cons a as ih =>
    have ha : a ≠ c := fun hac => h (hac ▸ List.mem_cons_self a as)
    have h' : c ∉ as := fun hc => h (List.mem_cons_of_mem a hc)
    simp [splitOnChar, ha, ih h']

theorem addressDomains_nonempty_noslash :
    ∀ d ∈ addressDomains, d ≠ [] ∧ '/' ∉ d := by decide

/-- C1: for every well-formed `Address` (domain among the six
`AddressDomain` values, non-empty slash-free entity UUID, `server_port`
empty or a slash-free host:port string), `parseAddress` is a left inverse of
`addressToString`, for local addresses (leading `/`) and hub-qualified
addresses alike. -/
theorem c1_address_roundtrip (a : Address) (h : WellFormedAddress a) :
    parseAddress (addressToString a) = .ok a := by
  obtain ⟨hdom, hent, hentsl, hsp⟩ := h
  obtain ⟨hdne, hdsl⟩ := addressDomains_nonempty_noslash a.domain hdom
  by_cases hlocal : a.server_port = []
  · -- local form "/DOMAIN/entity"
    have hsplit : splitOnChar '/' ('/' :: a.domain ++ '/' :: a.entity) =
        [[], a.domain, a.entity] := by
      have h1 : splitOnChar '/' (a.domain ++ '/' :: a.entity) =
          a.domain :: splitOnChar '/' a.entity := splitOnChar_append _ hdsl
      simp [splitOnChar, h1, splitOnChar_of_not_mem hentsl]
    simp only [addressToString, hlocal]
    rw [if_neg (by simp [hdne])]
    simp only [if_true]
    simp only [parseAddress]
    rw [if_neg (by simp)]
    simp only [hsplit]
    rw [if_pos (by simp)]
    cases a
    simp_all
  · -- remote form "server:port/DOMAIN/entity"
    obtain ⟨c, rest, hform⟩ : ∃ c rest, a.server_port = c :: rest := by
      cases hv : a.server_port with
      | nil => exact absurd hv hlocal
      | cons c rest => exact ⟨c, rest, rfl⟩
    have hcne : c ≠ '/' := by
      intro hc
      exact hsp (by rw [hform, hc]; exact List.mem_cons_self _ _)
    have hsplit : splitOnChar '/' (a.server_port ++ '/' :: (a.domain ++ '/' :: a.entity)) =
        [a.server_port, a.domain, a.entity] := by
      have h1 : splitOnChar '/' (a.domain ++ '/' :: a.entity) =
          a.domain :: splitOnChar '/' a.entity := splitOnChar_append _ hdsl
      rw [splitOnChar_append _ hsp, h1, splitOnChar_of_not_mem hentsl]
    simp only [addressToString, hlocal]
    rw [if_neg (by simp [hlocal])]
    simp only [if_false]
    simp only [parseAddress]
    rw [if_neg (by simp [hform])]
    simp only [List.append_assoc, List.cons_append, List.nil_append] at hsplit ⊢
    simp only [hsplit]
    rw [if_neg (by simp [hform, hcne])]
    rw [if_pos (by simp)]
    cases a
    simp_all

theorem c1_address_roundtrip_witness :
    parseAddress (addressToString
      { server_port := [], domain := "FRAGMENT".data,
        entity := "123e4567-e89b-12d3-a456-426614174000".data }) =
      .ok { server_port := [], domain := "FRAGMENT".data,
            entity := "123e4567-e89b-12d3-a456-426614174000".data } ∧
    parseAddress (addressToString
      { server_port := "hub.example.com:8443".data, domain := "AGENT".data,
        entity := "00000000-0000-0000-0000-000000000001".data }) =
      .ok { server_port := "hub.example.com:8443".data, domain := "AGENT".data,
            entity := "00000000-0000-0000-0000-000000000001".data } := by
  constructor
  · exact c1_address_roundtrip _ (by constructor <;> decide)
  · exact c1_address_roundtrip _ (by constructor <;> decide)

-- ---------------------------------------------------------------------------
-- Theorems for C2
-- ---------------------------------------------------------------------------

theorem lexLe_trans :
    ∀ x y z : LStr, lexLe x y = true → lexLe y z = true → lexLe x z = true := by
  intro x
  induction x with
  | nil => intro y z _ _; rfl
  | cons a as ih =>
    intro y z hxy hyz
    cases y with
    | nil => simp [lexLe] at hxy
    | cons b bs =>
      cases z with
      | nil => simp [lexLe] at hyz
      | cons c cs =>
        simp only [lexLe] at hxy hyz ⊢
        by_cases hab : a = b <;> by_cases hbc : b = c
        · subst hab; subst hbc
          simp only [if_pos rfl] at hxy hyz ⊢
          exact ih bs cs hxy hyz
        · subst hab
          simp only [if_pos rfl, if_neg hbc] at hyz ⊢
          simpa using hyz
        · subst hbc
          simp only [if_neg hab] at hxy ⊢
          simpa using hxy
        · simp only [if_neg hab, if_neg hbc, decide_eq_true_eq] at hxy hyz
          have hac : a < c := lt_trans hxy hyz
          simp [ne_of_lt hac, hac]

theorem lexLe_antisymm :
    ∀ x y : LStr, lexLe x y = true → lexLe y x = true → x = y := by
  intro x
  induction x with
  | nil =>
    intro y _ hyx
    cases y with
    | nil => rfl
    | cons b bs => simp [lexLe] at hyx
  | cons a as ih =>
    intro y hxy hyx
    cases y with
    | nil => simp [lexLe] at hxy
    | cons b bs =>
      simp only [lexLe] at hxy hyx
      by_cases hab : a = b
      · subst hab
        simp only [if_pos rfl] at hxy hyx
        rw [ih bs hxy hyx]
      · have hba : b ≠ a := fun h => hab h.symm
        simp only [if_neg hab, decide_eq_true_eq] at hxy
        simp only [if_neg hba, decide_eq_true_eq] at hyx
        exact absurd hyx (lt_asymm hxy)

theorem lexLe_total_bool : ∀ x y : LStr, (lexLe x y || lexLe y x) = true := by
  intro x
  induction x with
  | nil => intro y; simp [lexLe]
  | cons a as ih =>
    intro y
    cases y with
    | nil => simp [lexLe]
    | cons b bs =>
      simp only [lexLe]
      by_cases hab : a = b
      · subst hab; simp only [if_pos rfl]; exact ih bs
      · have hba : b ≠ a := fun h => hab h.symm
        rcases lt_or_gt_of_ne hab with h | h
        · simp [hab, h]
        · simp [hab, hba, h, le_of_lt]

theorem assocLookup_congr_perm {α : Type} {l1 l2 : List (LStr × α)} (h : l1.Perm l2) :
    (l1.map Prod.fst).Nodup → ∀ k : LStr, assocLookup k l1 = assocLookup k l2 := by
  induction h with
  | nil => intro _ _; rfl
  | cons x p ih =>
    intro hnd k
    simp only [List.map_cons, List.nodup_cons] at hnd
    by_cases hk : x.1 = k
    · simp [assocLookup, hk]
    · simp only [assocLookup]
      rw [if_neg hk, if_neg hk]
      exact ih hnd.2 k
  | swap x y l =>
    intro hnd k
    simp only [List.map_cons, List.nodup_cons, List.mem_cons] at hnd
    have hxy : y.1 ≠ x.1 := fun e => hnd.1 (Or.inl e)
    by_cases h1 : y.1 = k <;> by_cases h2 : x.1 = k
    · exact absurd (h1.trans h2.symm) hxy
    · simp [assocLookup, h1, h2]
    · simp [assocLookup, h1, h2]
    · simp [assocLookup, h1, h2]
  | trans p1 _ ih1 ih2 =>
    intro hnd k
    have hnd2 := ((p1.map Prod.fst).nodup_iff).mp hnd
    rw [ih1 hnd k, ih2 hnd2 k]

/-- C2 (amended): `canonicalize` is insensitive to permutations of the
TOP-LEVEL fields of an entity (keys being unique, as for any JS object):
any two top-level field orders produce identical canonical strings — and
hence identical signatures.  Nested objects, however, are serialized in
their stored field order, not re-sorted (see the counterexample). -/
theorem c2_canonicalize_toplevel_permutation
    (fields1 fields2 : List (LStr × JVal)) (hperm : fields1.Perm fields2)
    (hnd : (fields1.map Prod.fst).Nodup) :
    canonicalize fields1 = canonicalize fields2 := by
  have hkeys : (fields1.map Prod.fst).Perm (fields2.map Prod.fst) := hperm.map _
  have hs1 := List.sorted_mergeSort lexLe_trans lexLe_total_bool
    (fields1.map Prod.fst)
  have hs2 := List.sorted_mergeSort lexLe_trans lexLe_total_bool
    (fields2.map Prod.fst)
  have hp : ((fields1.map Prod.fst).mergeSort lexLe).Perm
      ((fields2.map Prod.fst).mergeSort lexLe) :=
    ((List.mergeSort_perm _ _).trans hkeys).trans (List.mergeSort_perm _ _).symm
  have heq : (fields1.map Prod.fst).mergeSort lexLe =
      (fields2.map Prod.fst).mergeSort lexLe :=
    @List.eq_of_perm_of_sorted _ (fun a b => lexLe a b = true) ⟨lexLe_antisymm⟩ _ _ hp hs1 hs2
  have hfun : (fun k : LStr => (k, (assocLookup k fields1).getD JVal.jnull)) =
      (fun k : LStr => (k, (assocLookup k fields2).getD JVal.jnull)) := by
    funext k
    rw [assocLookup_congr_perm hperm hnd k]
  simp only [canonicalize, heq, hfun]

theorem c2_canonicalize_toplevel_permutation_witness :
    canonicalize [("b".data, JVal.jnull), ("a".data, JVal.jbool true)] =
      canonicalize [("a".data, JVal.jbool true), ("b".data, JVal.jnull)] :=
  c2_canonicalize_toplevel_permutation _ _ (List.Perm.swap _ _ []).symm (by decide)

set_option maxRecDepth 4000 in
/-- C2 counterexample: two representations of the same logical fragment
that differ only in the field order of the nested `creator` Address object
(an explicit permutation) produce DIFFERENT canonical payloads — the
claimed recursive field-sorting of nested objects does not happen. -/
theorem c2_nested_field_order_counterexample :
    creatorFieldsA.Perm creatorFieldsB ∧
    getFragmentSignablePayload fragSignableA ≠ getFragmentSignablePayload fragSignableB := by
  constructor
  · exact ((List.Perm.swap _ _ _).symm.trans
      (List.Perm.cons _ (List.Perm.swap _ _ []).symm))
  · simp only [getFragmentSignablePayload, fragSignableA, fragSignableB,
      creatorFieldsA, creatorFieldsB, canonicalize]
    simp [List.mergeSort, lexLe, stringify, stringifyObj, stringifyArr,
      jsonQuote, jsonEscapeChar, assocLookup, braceL, braceR, orFalsyStr]


-- ---------------------------------------------------------------------------
-- Theorems for C3
-- ---------------------------------------------------------------------------

theorem evidence_foldl_support (thesisId : LStr) (relations : List Relation) :
    ∀ b : EvidenceBalance,
      (relations.foldl (evidenceStep thesisId) b).support_score =
        b.support_score +
          ((relations.filter (fun r =>
              decide (r.«to».entity = thesisId ∧ r.type = RelationType.SUPPORTS))).map
            (fun r => r.confidence.getD 1)).sum := by
  induction relations with
  | nil => intro b; simp
  | cons r rest ih =>
    intro b
    by_cases hto : r.«to».entity = thesisId
    · by_cases hty : r.type = RelationType.SUPPORTS
      · simp only [List.foldl_cons, List.filter_cons, List.map_cons, List.sum_cons,
          ih, evidenceStep, if_pos hto, if_pos hty, hto, hty]
        simp
        ring
      · have hpr : ¬ (r.«to».entity = thesisId ∧ r.type = RelationType.SUPPORTS) :=
          fun h => hty h.2
        by_cases hc : r.type = RelationType.CONTRADICTS <;>
          simp [List.filter_cons, hpr, ih, evidenceStep, if_pos hto, if_neg hty, hc]
    · have hpr : ¬ (r.«to».entity = thesisId ∧ r.type = RelationType.SUPPORTS) :=
        fun h => hto h.1
      simp [List.filter_cons, hpr, ih, evidenceStep, if_neg hto]

theorem evidence_foldl_contradict (thesisId : LStr) (relations : List Relation) :
    ∀ b : EvidenceBalance,
      (relations.foldl (evidenceStep thesisId) b).contradict_score =
        b.contradict_score +
          ((relations.filter (fun r =>
              decide (r.«to».entity = thesisId ∧ r.type = RelationType.CONTRADICTS))).map
            (fun r => r.confidence.getD 1)).sum := by
  induction relations with
  | nil => intro b; simp
  | cons r rest ih =>
    intro b
    by_cases hto : r.«to».entity = thesisId
    · by_cases hty : r.type = RelationType.CONTRADICTS
      · have hns : ¬ r.type = RelationType.SUPPORTS := by
          rw [hty]; intro h; cases h
        simp only [List.foldl_cons, List.filter_cons, List.map_cons, List.sum_cons,
          ih, evidenceStep, if_pos hto, if_neg hns, if_pos hty, hto, hty]
        simp
        ring
      · have hpr : ¬ (r.«to».entity = thesisId ∧ r.type = RelationType.CONTRADICTS) :=
          fun h => hty h.2
        by_cases hs : r.type = RelationType.SUPPORTS <;>
          simp [List.filter_cons, hpr, ih, evidenceStep, if_pos hto, if_neg hty, hs]
    · have hpr : ¬ (r.«to».entity = thesisId ∧ r.type = RelationType.CONTRADICTS) :=
        fun h => hto h.1
      simp [List.filter_cons, hpr, ih, evidenceStep, if_neg hto]

/-- C3: the evidence balance sums relation confidence over edges targeting
the thesis with type SUPPORTS (resp. CONTRADICTS); `net = support -
contradict`; the verdict is `well_supported` iff `net > 0.5` (strict),
`contested` iff `net < -0.5`, else `neutral`; and on the concrete example
`[{SUPPORTS, 0.8}, {CONTRADICTS, 0.3}]` targeting `F` the scores are 0.8 /
0.3 / 0.5 and the boundary value 0.5 resolves to `neutral`. -/
theorem c3_evidence_balance :
    (∀ (thesisId : LStr) (relations : List Relation),
      (calculateEvidenceBalance thesisId relations).support_score =
        ((relations.filter (fun r =>
            decide (r.«to».entity = thesisId ∧ r.type = RelationType.SUPPORTS))).map
          (fun r => r.confidence.getD 1)).sum ∧
      (calculateEvidenceBalance thesisId relations).contradict_score =
        ((relations.filter (fun r =>
            decide (r.«to».entity = thesisId ∧ r.type = RelationType.CONTRADICTS))).map
          (fun r => r.confidence.getD 1)).sum ∧
      (calculateEvidenceBalance thesisId relations).net_score =
        (calculateEvidenceBalance thesisId relations).support_score -
          (calculateEvidenceBalance thesisId relations).contradict_score) ∧
    (∀ n : ℚ,
      (evidenceVerdict n = .well_supported ↔ n > 0.5) ∧
      (evidenceVerdict n = .contested ↔ n < -0.5) ∧
      (evidenceVerdict n = .neutral ↔ (¬ n > 0.5 ∧ ¬ n < -0.5))) ∧
    ((calculateEvidenceBalance ("F".data) c3ExampleRelations).support_score = 0.8 ∧
     (calculateEvidenceBalance ("F".data) c3ExampleRelations).contradict_score = 0.3 ∧
     (calculateEvidenceBalance ("F".data) c3ExampleRelations).net_score = 0.5 ∧
     evidenceVerdict (calculateEvidenceBalance ("F".data) c3ExampleRelations).net_score =
       .neutral) := by
  refine ⟨?_, ?_, ?_⟩
  · intro thesisId relations
    refine ⟨?_, ?_, ?_⟩
    · have h := evidence_foldl_support thesisId relations
        { thesis_id := thesisId, supporting := [], contradicting := []
          support_score := 0, contradict_score := 0, net_score := 0 }
      simpa [calculateEvidenceBalance] using h
    · have h := evidence_foldl_contradict thesisId relations
        { thesis_id := thesisId, supporting := [], contradicting := []
          support_score := 0, contradict_score := 0, net_score := 0 }
      simpa [calculateEvidenceBalance] using h
    · simp [calculateEvidenceBalance]
  · intro n
    by_cases h1 : n > 0.5
    · have h2 : ¬ n < -0.5 := by
        intro h
        norm_num at h1 h
        linarith
      simp [evidenceVerdict, h1, h2]
    · by_cases h2 : n < -0.5 <;> simp [evidenceVerdict, h1, h2]
  · have hne1 : RelationType.CONTRADICTS ≠ RelationType.SUPPORTS := by decide
    have hne2 : RelationType.SUPPORTS ≠ RelationType.CONTRADICTS := by decide
    have hsup : (calculateEvidenceBalance ("F".data) c3ExampleRelations).support_score
        = 0.8 := by
      norm_num [calculateEvidenceBalance, evidenceStep, c3ExampleRelations, mkRelation,
        createLocalAddress, hne1, hne2]
    have hcon : (calculateEvidenceBalance ("F".data) c3ExampleRelations).contradict_score
        = 0.3 := by
      norm_num [calculateEvidenceBalance, evidenceStep, c3ExampleRelations, mkRelation,
        createLocalAddress, hne1, hne2]
    have hnet : (calculateEvidenceBalance ("F".data) c3ExampleRelations).net_score
        = 0.5 := by
      norm_num [calculateEvidenceBalance, evidenceStep, c3ExampleRelations, mkRelation,
        createLocalAddress, hne1, hne2]
    refine ⟨hsup, hcon, hnet, ?_⟩
    rw [hnet]
    norm_num [evidenceVerdict]

-- ---------------------------------------------------------------------------
-- Theorems for C4 and C10
-- ---------------------------------------------------------------------------

theorem traverse_gas_irrelevant (has : LStr → Bool) (rels : List Relation) (md : Nat) :
    ∀ gas1 gas2 fragId depth st, md + 1 - depth ≤ gas1 → md + 1 - depth ≤ gas2 →
      traverseChain has rels md gas1 fragId depth st = traverseChain has rels md gas2 fragId depth st := by
  intro gas1
  induction gas1 with
  | zero =>
    intro gas2 fragId depth st h1 _
    have hd : depth > md := by omega
    cases gas2 with
    | zero => rfl
    | succ g2 => simp [traverseChain, hd]
  | succ g ih =>
    intro gas2 fragId depth st h1 h2
    by_cases hc : depth > md ∨ fragId ∈ st.visited
    · cases gas2 with
      | zero => simp [traverseChain, hc]
      | succ g2 => simp [traverseChain, hc]
    · have hd : ¬ depth > md := fun h => hc (Or.inl h)
      cases gas2 with
      | zero => omega
      | succ g2 =>
        simp only [traverseChain, if_neg hc]
        have hfold : ∀ (l : List LStr) (acc : TraverseState),
            l.foldl (fun acc s => traverseChain has rels md g s (depth + 1) acc) acc =
            l.foldl (fun acc s => traverseChain has rels md g2 s (depth + 1) acc) acc := by
          intro l
          induction l with
          | nil => intro acc; rfl
          | cons s rest ihl =>
            intro acc
            simp only [List.foldl_cons]
            rw [ih g2 s (depth + 1) acc (by omega) (by omega), ihl]
        exact hfold _ _

theorem traverse_issues_mono (has : LStr → Bool) (rels : List Relation) (md : Nat) :
    ∀ gas fragId depth st, ∃ t,
      (traverseChain has rels md gas fragId depth st).issues = st.issues ++ t := by
  intro gas
  induction gas with
  | zero =>
    intro fragId depth st
    by_cases hc : depth > md ∨ fragId ∈ st.visited
    · by_cases hv : fragId ∈ st.visited
      · exact ⟨[circularIssue fragId], by simp [traverseChain, hc, hv]⟩
      · have hd : depth > md := hc.resolve_right hv
        exact ⟨[], by simp [traverseChain, hd, hv]⟩
    · exact ⟨[], by simp [traverseChain, hc]⟩
  | succ g ih =>
    intro fragId depth st
    by_cases hc : depth > md ∨ fragId ∈ st.visited
    · by_cases hv : fragId ∈ st.visited
      · exact ⟨[circularIssue fragId], by simp [traverseChain, hc, hv]⟩
      · have hd : depth > md := hc.resolve_right hv
        exact ⟨[], by simp [traverseChain, hd, hv]⟩
    · have hfold : ∀ (l : List LStr) (acc : TraverseState), ∃ t,
          (l.foldl (fun acc s => traverseChain has rels md g s (depth + 1) acc) acc).issues =
            acc.issues ++ t := by
        intro l
        induction l with
        | nil => intro acc; exact ⟨[], by simp⟩
        | cons s rest ihl =>
          intro acc
          obtain ⟨t1, ht1⟩ := ih s (depth + 1) acc
          obtain ⟨t2, ht2⟩ :=
            ihl (traverseChain has rels md g s (depth + 1) acc)
          exact ⟨t1 ++ t2, by rw [List.foldl_cons, ht2, ht1, List.append_assoc]⟩
      obtain ⟨t, ht⟩ := hfold (derivedFromTargets rels fragId)
        (traverseVisit has rels fragId depth st)
      refine ⟨((derivedFromTargets rels fragId).filter (fun s => ! has s)).map
        (missingIssue fragId) ++ t, ?_⟩
      simp only [traverseChain, if_neg hc]
      rw [ht]
      simp [traverseVisit]

/-- C4: `check_derivation_chain` reports `broken` iff a `missing_reference`
or `circular_dependency` issue was recorded (`valid` otherwise, the only two
produced validities); every unfetchable `derives_from` target of the root
records a `missing_reference` issue; the cycle A→B→C→A records a single
`circular_dependency` issue at the revisit of A with overall `broken`; an
unfetchable target does not abort traversal of its siblings (Y is still
visited); and exceeding `max_depth` alone records no issue and stays
`valid`. -/
theorem c4_derivation_chain_validity :
    (∀ (has : LStr → Bool) (rels : List Relation) (fid : LStr) (mdArg : Option Nat),
      ((checkDerivationChain has rels fid mdArg).validity = .broken ↔
        ∃ i ∈ (checkDerivationChain has rels fid mdArg).issues,
          i.issue_type = .missing_reference ∨ i.issue_type = .circular_dependency) ∧
      ((checkDerivationChain has rels fid mdArg).validity = .valid ∨
        (checkDerivationChain has rels fid mdArg).validity = .broken)) ∧
    (∀ (has : LStr → Bool) (rels : List Relation) (fid : LStr) (mdArg : Option Nat)
        (s : LStr), s ∈ derivedFromTargets rels fid → has s = false →
      ∃ i ∈ (checkDerivationChain has rels fid mdArg).issues,
        i.fragment_id = fid ∧ i.issue_type = .missing_reference) ∧
    ((checkDerivationChain (gatewayOf [("A".data), ("B".data), ("C".data)])
        cycleRelations ("A".data) none).validity = .broken ∧
      (checkDerivationChain (gatewayOf [("A".data), ("B".data), ("C".data)])
        cycleRelations ("A".data) none).issues = [circularIssue ("A".data)]) ∧
    ((checkDerivationChain (gatewayOf [("D".data), ("Y".data)])
        missingRefRelations ("D".data) none).validity = .broken ∧
      (checkDerivationChain (gatewayOf [("D".data), ("Y".data)])
        missingRefRelations ("D".data) none).issues =
        [missingIssue ("D".data) ("X1".data), missingIssue ("D".data) ("X2".data)] ∧
      ("Y".data) ∈ ((checkDerivationChain (gatewayOf [("D".data), ("Y".data)])
        missingRefRelations ("D".data) none).derivation_chain.map
          (fun e => e.fragment_id))) ∧
    ((checkDerivationChain
        (gatewayOf [("E0".data), ("E1".data), ("E2".data), ("E3".data), ("E4".data)])
        deepChainRelations ("E0".data) (some 2)).validity = .valid ∧
      (checkDerivationChain
        (gatewayOf [("E0".data), ("E1".data), ("E2".data), ("E3".data), ("E4".data)])
        deepChainRelations ("E0".data) (some 2)).issues = []) := by
  refine ⟨?_, ?_, by decide, by decide, by decide⟩
  · intro has rels fid mdArg
    constructor
    · by_cases h : (traverseChain has rels (resolveMaxDepth mdArg) (resolveMaxDepth mdArg + 1)
          fid 0 { visited := [], chain := [], issues := [] }).issues.any (fun i =>
          decide (i.issue_type = .missing_reference ∨ i.issue_type = .circular_dependency))
      · simp only [checkDerivationChain, h, if_true]
        constructor
        · intro _
          obtain ⟨i, hi, hp⟩ := List.any_eq_true.mp h
          exact ⟨i, hi, of_decide_eq_true hp⟩
        · intro _; trivial
      · simp only [checkDerivationChain, h, if_false]
        constructor
        · intro hv; cases hv
        · intro hex
          obtain ⟨i, hi, hp⟩ := hex
          exact absurd (List.any_eq_true.mpr ⟨i, hi, decide_eq_true hp⟩) h
    · by_cases h : (traverseChain has rels (resolveMaxDepth mdArg) (resolveMaxDepth mdArg + 1)
          fid 0 { visited := [], chain := [], issues := [] }).issues.any (fun i =>
          decide (i.issue_type = .missing_reference ∨ i.issue_type = .circular_dependency))
      · right
        simp only [checkDerivationChain, h, if_true]
      · left
        simp only [checkDerivationChain, h, Bool.false_eq_true, if_false]
  · intro has rels fid mdArg s hmem hfalse
    have hroot : ¬ ((0 : Nat) > resolveMaxDepth mdArg ∨
        fid ∈ (TraverseState.mk [] [] []).visited) := by
      simp
    have hunfold : traverseChain has rels (resolveMaxDepth mdArg) (resolveMaxDepth mdArg + 1)
        fid 0 { visited := [], chain := [], issues := [] } =
        (derivedFromTargets rels fid).foldl
          (fun acc sourceId => traverseChain has rels (resolveMaxDepth mdArg)
            (resolveMaxDepth mdArg) sourceId 1 acc)
          (traverseVisit has rels fid 0 { visited := [], chain := [], issues := [] }) := by
      simp [traverseChain, hroot]
    have hmono : ∀ (l : List LStr) (acc : TraverseState), ∃ t,
        (l.foldl (fun acc s2 => traverseChain has rels (resolveMaxDepth mdArg)
          (resolveMaxDepth mdArg) s2 1 acc) acc).issues = acc.issues ++ t := by
      intro l
      induction l with
      | nil => intro acc; exact ⟨[], by simp⟩
      | cons x rest ihl =>
        intro acc
        obtain ⟨t1, ht1⟩ := traverse_issues_mono has rels (resolveMaxDepth mdArg)
          (resolveMaxDepth mdArg) x 1 acc
        obtain ⟨t2, ht2⟩ := ihl (traverseChain has rels (resolveMaxDepth mdArg)
          (resolveMaxDepth mdArg) x 1 acc)
        exact ⟨t1 ++ t2, by rw [List.foldl_cons, ht2, ht1, List.append_assoc]⟩
    obtain ⟨t, ht⟩ := hmono (derivedFromTargets rels fid)
      (traverseVisit has rels fid 0 { visited := [], chain := [], issues := [] })
    refine ⟨missingIssue fid s, ?_, rfl, rfl⟩
    simp only [checkDerivationChain, hunfold, ht]
    apply List.mem_append_left
    simp [traverseVisit]
    exact ⟨s, ⟨hmem, by simp [hfalse]⟩, rfl⟩

theorem c4_derivation_chain_validity_witness :
    ∃ i ∈ (checkDerivationChain (gatewayOf [("D".data), ("Y".data)])
        missingRefRelations ("D".data) none).issues,
      i.fragment_id = ("D".data) ∧ i.issue_type = .missing_reference :=
  c4_derivation_chain_validity.2.1 (gatewayOf [("D".data), ("Y".data)])
    missingRefRelations ("D".data) none ("X1".data) (by decide) (by decide)

/-- C10: on the acyclic diamond (R derives from B and C, each of which
derives from D) the traversal classifies the second encounter of D as a
`circular_dependency` — the visited set is never cleared on returning from a
subtree — so the report is `broken` with a circular issue at D even though
the DERIVED_FROM graph has no cycle, and D is indeed claimed as a parent by
two distinct fragments. -/
theorem c10_diamond_reported_circular :
    hasDerivationCycle diamondRelations = false ∧
    ((checkDerivationChain (gatewayOf [("R".data), ("B".data), ("C".data), ("D".data)])
        diamondRelations ("R".data) none).validity = .broken ∧
      (checkDerivationChain (gatewayOf [("R".data), ("B".data), ("C".data), ("D".data)])
        diamondRelations ("R".data) none).issues = [circularIssue ("D".data)]) ∧
    ((diamondRelations.filter (fun r =>
        decide (r.«to».entity = ("D".data) ∧ r.type = RelationType.DERIVED_FROM))).length
      = 2) := by
  refine ⟨by decide, ⟨by decide, by decide⟩, by decide⟩

-- ---------------------------------------------------------------------------
-- Theorems for C5
-- ---------------------------------------------------------------------------

theorem loadContextSelect_sum_le (B : ℚ) :
    ∀ (l : List SearchFragment) (total : ℚ), total ≤ B →
      total + ((loadContextSelect B l total).map
        (fun f => (f.content.length : ℚ) + 100)).sum ≤ B := by
  intro l
  induction l with
  | nil => intro total h; simpa [loadContextSelect] using h
  | cons f rest ih =>
    intro total h
    by_cases hfit : total + ((f.content.length : ℚ) + 100) > B
    · simpa [loadContextSelect, hfit] using h
    · push_neg at hfit
      have := ih (total + ((f.content.length : ℚ) + 100)) hfit
      simp only [loadContextSelect, if_neg (not_lt.mpr hfit), List.map_cons, List.sum_cons]
      linarith

theorem loadContextSelect_sublist (B : ℚ) :
    ∀ (l : List SearchFragment) (total : ℚ), (loadContextSelect B l total).Sublist l := by
  intro l
  induction l with
  | nil => intro total; simp [loadContextSelect]
  | cons f rest ih =>
    intro total
    by_cases hfit : total + ((f.content.length : ℚ) + 100) > B
    · simp [loadContextSelect, hfit]
    · simpa [loadContextSelect, hfit] using
        List.Sublist.cons₂ f (ih (total + ((f.content.length : ℚ) + 100)))

/-- C5 (amended): the selection never exceeds the requested budget —
`Σ (len(content)+100) / 4 ≤ token_budget` — fragments are taken greedily in
ranked order with a running `token_budget * 4` character budget stopping at
the first overflow, and the returned fragments appear in DESCENDING
(non-increasing) relevance order, where
`relevance = ((trust_score + 1) / 2) * confidence`; ties keep their search
order, so the order is not strict in general (see the counterexample). -/
theorem c5_load_context_budget_and_order
    (searchData : List SearchFragment) (tokenBudgetArg minConfidenceArg : Option ℚ)
    (hb : 0 ≤ orFalsyNum tokenBudgetArg 10000) :
    ((loadContextForTask searchData tokenBudgetArg minConfidenceArg).map
        (fun f => (f.content.length : ℚ) + 100)).sum / 4 ≤
      orFalsyNum tokenBudgetArg 10000 ∧
    List.Pairwise (fun a b => relevance_score b ≤ relevance_score a)
      (loadContextForTask searchData tokenBudgetArg minConfidenceArg) ∧
    (∀ f : SearchFragment, relevance_score f =
      ((f.trust_summary.map TrustSummary.score).getD 0 + 1) / 2 * (f.confidence.getD 0.5)) := by
  refine ⟨?_, ?_, fun f => rfl⟩
  · have h := loadContextSelect_sum_le (orFalsyNum tokenBudgetArg 10000 * 4)
      (((searchData.filter (fun f =>
          decide (f.confidence.getD 0.5 ≥ orFalsyNum minConfidenceArg 0.3))).mergeSort
        (fun a b => decide (relevance_score b ≤ relevance_score a)))) 0
      (by linarith)
    simp only [loadContextForTask]
    rw [div_le_iff₀ (by norm_num : (0:ℚ) < 4)]
    calc ((loadContextSelect (orFalsyNum tokenBudgetArg 10000 * 4) _ 0).map
          (fun f => (f.content.length : ℚ) + 100)).sum
        = 0 + ((loadContextSelect (orFalsyNum tokenBudgetArg 10000 * 4) _ 0).map
          (fun f => (f.content.length : ℚ) + 100)).sum := by ring
      _ ≤ orFalsyNum tokenBudgetArg 10000 * 4 := h
  · have hsorted : List.Pairwise (fun a b =>
        (fun a b => decide (relevance_score b ≤ relevance_score a)) a b = true)
        (((searchData.filter (fun f =>
            decide (f.confidence.getD 0.5 ≥ orFalsyNum minConfidenceArg 0.3))).mergeSort
          (fun a b => decide (relevance_score b ≤ relevance_score a)))) := by
      apply List.sorted_mergeSort
      · intro a b c hab hbc
        simp only [decide_eq_true_eq] at hab hbc ⊢
        linarith
      · intro a b
        rcases le_total (relevance_score b) (relevance_score a) with h | h <;>
          simp [h]
    have hsub := loadContextSelect_sublist (orFalsyNum tokenBudgetArg 10000 * 4)
      (((searchData.filter (fun f =>
          decide (f.confidence.getD 0.5 ≥ orFalsyNum minConfidenceArg 0.3))).mergeSort
        (fun a b => decide (relevance_score b ≤ relevance_score a)))) 0
    simp only [loadContextForTask]
    refine (List.Pairwise.sublist hsub hsorted).imp ?_
    intro a b hab
    simpa using hab

theorem c5_load_context_budget_and_order_witness :
    ((loadContextForTask [tieFragA] (some 100) (some 0.3)).map
        (fun f => (f.content.length : ℚ) + 100)).sum / 4 ≤ orFalsyNum (some 100) 10000 ∧
    List.Pairwise (fun a b => relevance_score b ≤ relevance_score a)
      (loadContextForTask [tieFragA] (some 100) (some 0.3)) ∧
    (∀ f : SearchFragment, relevance_score f =
      ((f.trust_summary.map TrustSummary.score).getD 0 + 1) / 2 * (f.confidence.getD 0.5)) :=
  c5_load_context_budget_and_order [tieFragA] (some 100) (some 0.3) (by norm_num [orFalsyNum])

/-- C5 counterexample: two fragments with equal relevance (confidence 0.5,
no trust summary) are both returned, in search order, so the returned list
is NOT in strictly descending relevance order. -/
theorem c5_strict_descent_counterexample :
    loadContextForTask [tieFragA, tieFragB] (some 10000) (some 0.3) = [tieFragA, tieFragB] ∧
    ¬ List.Pairwise (fun a b => relevance_score b < relevance_score a)
      (loadContextForTask [tieFragA, tieFragB] (some 10000) (some 0.3)) := by
  have heq : loadContextForTask [tieFragA, tieFragB] (some 10000) (some 0.3)
      = [tieFragA, tieFragB] := by
    norm_num [loadContextForTask, orFalsyNum, tieFragA, tieFragB, List.mergeSort,
      relevance_score, loadContextSelect, List.filter]
  refine ⟨heq, ?_⟩
  rw [heq]
  intro hp
  have h2 := List.pairwise_cons.mp hp
  have := h2.1 tieFragB (List.mem_cons_self _ _)
  norm_num [relevance_score, tieFragA, tieFragB] at this


-- ---------------------------------------------------------------------------
-- Theorems for C6
-- ---------------------------------------------------------------------------

/-- C6: a well-formed cache (unique, non-empty keys) never grows past its
capacity under `put`; when a fresh uuid is inserted into a full cache
exactly the least-recently-used (first) entry is evicted; the constructor
default capacity is 5000; and in the concrete capacity-3 scenario inserting
u1..u4 evicts exactly u1, while touching u1 via `get` before inserting u4
protects u1 and evicts u2 instead. -/
theorem c6_address_cache_lru (c : AddressCache) (u : LStr) (a : Address)
    (hwf : CacheWF c) (hu : u ≠ []) :
    (c.entries.length ≤ c.maxSize → (c.put u a).entries.length ≤ c.maxSize) ∧
    (c.hasKey u = false → c.entries.length = c.maxSize → 1 ≤ c.maxSize →
      (c.put u a).entries = c.entries.tail ++ [(u, a)]) ∧
    AddressCache.new.maxSize = 5000 ∧
    demoAfterPuts.entries.map Prod.fst = [("u1".data), ("u2".data), ("u3".data)] ∧
    (demoAfterPuts.put ("u4".data)
        (createLocalAddress ("AGENT".data) ("u4".data))).entries.map Prod.fst =
      [("u2".data), ("u3".data), ("u4".data)] ∧
    demoAfterGetThenPut.entries.map Prod.fst =
      [("u3".data), ("u1".data), ("u4".data)] := by
  obtain ⟨hnd, hne⟩ := hwf
  refine ⟨?_, ?_, rfl, by decide, by decide, by decide⟩
  · intro hlen
    by_cases hk : c.hasKey u
    · obtain ⟨e, he, hp⟩ := List.any_eq_true.mp hk
      have h1 : (c.entries.eraseP (fun e => decide (e.1 = u))).length
          = c.entries.length - 1 := List.length_eraseP_of_mem he hp
      have hpos : 0 < c.entries.length := List.length_pos.mpr (List.ne_nil_of_mem he)
      have h2 : ((c.entries.eraseP (fun e => decide (e.1 = u))) ++ [(u, a)]).length
          = c.entries.length := by
        simp [h1]
        omega
      simp only [AddressCache.put, hk, if_true]
      have hcond : ¬ (((c.entries.eraseP (fun e => decide (e.1 = u))) ++ [(u, a)]).length
          > c.maxSize) := by
        rw [h2]; omega
      rw [if_neg hcond]
      simpa [h2] using hlen
    · simp only [AddressCache.put, hk, Bool.false_eq_true, if_false]
      by_cases hover : (c.entries ++ [(u, a)]).length > c.maxSize
      · rw [if_pos hover]
        cases hE : c.entries with
        | nil =>
          simp only [hE, List.nil_append, List.head?_cons]
          rw [if_pos hu]
          have herase : List.eraseP (fun e => decide (e.1 = u)) [(u, a)] = [] :=
            List.eraseP_cons_of_pos (by simp)
          simp [herase]
        | cons e0 t =>
          have hmem0 : e0.1 ∈ c.entries.map Prod.fst := by
            rw [hE]; exact List.mem_map_of_mem _ (List.mem_cons_self _ _)
          have hk0 : e0.1 ≠ [] := hne e0.1 hmem0
          simp only [hE, List.cons_append, List.head?_cons]
          rw [if_pos hk0]
          have herase : List.eraseP (fun e => decide (e.1 = e0.1)) (e0 :: (t ++ [(u, a)]))
              = t ++ [(u, a)] := List.eraseP_cons_of_pos (by simp)
          simp only [herase]
          have hct : c.entries.length = t.length + 1 := by simp [hE]
          simp only [List.length_append, List.length_cons, List.length_nil]
          omega
      · rw [if_neg hover]
        simp only [List.length_append, List.length_cons, List.length_nil] at hover ⊢
        omega
  · intro hk hlen hcap
    simp only [AddressCache.put, hk, Bool.false_eq_true, if_false]
    have hover : (c.entries ++ [(u, a)]).length > c.maxSize := by
      simp [hlen]
    rw [if_pos hover]
    cases hE : c.entries with
    | nil =>
      rw [hE] at hlen
      simp at hlen
      omega
    | cons e0 t =>
      have hmem0 : e0.1 ∈ c.entries.map Prod.fst := by
        rw [hE]; exact List.mem_map_of_mem _ (List.mem_cons_self _ _)
      have hk0 : e0.1 ≠ [] := hne e0.1 hmem0
      simp only [hE, List.cons_append, List.head?_cons]
      rw [if_pos hk0]
      have herase : List.eraseP (fun e => decide (e.1 = e0.1)) (e0 :: (t ++ [(u, a)]))
          = t ++ [(u, a)] := List.eraseP_cons_of_pos (by simp)
      simp [herase]

theorem c6_address_cache_lru_witness :
    (demoAfterPuts.entries.length ≤ demoAfterPuts.maxSize →
      (demoAfterPuts.put ("u9".data)
          (createLocalAddress ("AGENT".data) ("u9".data))).entries.length
        ≤ demoAfterPuts.maxSize) ∧
    (demoAfterPuts.hasKey ("u9".data) = false →
      demoAfterPuts.entries.length = demoAfterPuts.maxSize → 1 ≤ demoAfterPuts.maxSize →
      (demoAfterPuts.put ("u9".data)
          (createLocalAddress ("AGENT".data) ("u9".data))).entries =
        demoAfterPuts.entries.tail ++
          [(("u9".data), createLocalAddress ("AGENT".data) ("u9".data))]) ∧
    AddressCache.new.maxSize = 5000 ∧
    demoAfterPuts.entries.map Prod.fst = [("u1".data), ("u2".data), ("u3".data)] ∧
    (demoAfterPuts.put ("u4".data)
        (createLocalAddress ("AGENT".data) ("u4".data))).entries.map Prod.fst =
      [("u2".data), ("u3".data), ("u4".data)] ∧
    demoAfterGetThenPut.entries.map Prod.fst =
      [("u3".data), ("u1".data), ("u4".data)] :=
  c6_address_cache_lru demoAfterPuts ("u9".data)
    (createLocalAddress ("AGENT".data) ("u9".data)) (by constructor <;> decide) (by decide)

-- ---------------------------------------------------------------------------
-- Theorems for C7 and C8
-- ---------------------------------------------------------------------------

/-- C7 counterexample: at context pressure 0.8 the HYPOTHESIS type is
mapped to `t1-symbolic`, whose `expected_compression` (0.39) is strictly
below that of the preset `t3-compact` (0.56) — so the returned preset is
NOT the highest-compression preset by the `expected_compression`
metadata. -/
theorem c7_highest_compression_counterexample :
    selectPreset ("HYPOTHESIS".data) 0.8 = "t1-symbolic".data ∧
    expectedCompressionOf ("t1-symbolic".data) <
      expectedCompressionOf ("t3-compact".data) ∧
    ("t3-compact".data) ∈ presetKeys := by
  have ne1 : ("t3-compact".data : LStr) ≠ "t1-symbolic".data := by decide
  refine ⟨?_, ?_, by decide⟩
  · have h1 : (0.8 : ℚ) > 0.7 := by norm_num
    simp [selectPreset, h1]
  · norm_num [expectedCompressionOf, PRESETS, ne1]

/-- C7 (amended): for every context pressure above 0.7, HYPOTHESIS,
SYNTHESIS and INSIGHT are upgraded to `t1-symbolic` — a higher-compression
preset than their normal `t4-hybrid` assignment, but not the maximum — and
every other fragment type receives `t3-compact`, which IS the
max-compression preset by the `expected_compression` metadata. -/
theorem c7_high_pressure_selection (contextPressure : ℚ) (hp : contextPressure > 0.7)
    (fragmentType : LStr) :
    selectPreset fragmentType contextPressure =
      (if fragmentType = "HYPOTHESIS".data ∨ fragmentType = "SYNTHESIS".data ∨
          fragmentType = "INSIGHT".data then "t1-symbolic".data else "t3-compact".data) ∧
    (∀ k ∈ presetKeys, expectedCompressionOf k ≤ expectedCompressionOf ("t3-compact".data)) ∧
    expectedCompressionOf ("t4-hybrid".data) < expectedCompressionOf ("t1-symbolic".data) := by
  have ne1 : ("t3-compact".data : LStr) ≠ "t1-symbolic".data := by decide
  have ne2a : ("t4-hybrid".data : LStr) ≠ "t1-symbolic".data := by decide
  have ne2b : ("t4-hybrid".data : LStr) ≠ "t3-compact".data := by decide
  have ne3a : ("baseline".data : LStr) ≠ "t1-symbolic".data := by decide
  have ne3b : ("baseline".data : LStr) ≠ "t3-compact".data := by decide
  have ne3c : ("baseline".data : LStr) ≠ "t4-hybrid".data := by decide
  have hv1 : expectedCompressionOf ("t1-symbolic".data) = 0.39 := by
    norm_num [expectedCompressionOf, PRESETS]
  have hv3 : expectedCompressionOf ("t3-compact".data) = 0.56 := by
    norm_num [expectedCompressionOf, PRESETS, ne1]
  have hv4 : expectedCompressionOf ("t4-hybrid".data) = 0.24 := by
    norm_num [expectedCompressionOf, PRESETS, ne2a, ne2b]
  have hvb : expectedCompressionOf ("baseline".data) = 0 := by
    norm_num [expectedCompressionOf, PRESETS, ne3a, ne3b, ne3c]
  refine ⟨by simp [selectPreset, hp], ?_, ?_⟩
  · intro k hk
    simp only [presetKeys, List.mem_cons, List.not_mem_nil, or_false] at hk
    rcases hk with rfl | rfl | rfl | rfl
    · show expectedCompressionOf ("t1-symbolic".data) ≤ expectedCompressionOf ("t3-compact".data)
      rw [hv1, hv3]; norm_num
    · show expectedCompressionOf ("t3-compact".data) ≤ expectedCompressionOf ("t3-compact".data)
      exact le_refl _
    · show expectedCompressionOf ("t4-hybrid".data) ≤ expectedCompressionOf ("t3-compact".data)
      rw [hv4, hv3]; norm_num
    · show expectedCompressionOf ("baseline".data) ≤ expectedCompressionOf ("t3-compact".data)
      rw [hvb, hv3]; norm_num
  · rw [hv4, hv1]; norm_num

theorem c7_high_pressure_selection_witness :
    selectPreset ("FACT".data) 0.8 =
      (if ("FACT".data : LStr) = "HYPOTHESIS".data ∨
          ("FACT".data : LStr) = "SYNTHESIS".data ∨
          ("FACT".data : LStr) = "INSIGHT".data
        then "t1-symbolic".data else "t3-compact".data) ∧
    (∀ k ∈ presetKeys, expectedCompressionOf k ≤ expectedCompressionOf ("t3-compact".data)) ∧
    expectedCompressionOf ("t4-hybrid".data) < expectedCompressionOf ("t1-symbolic".data) :=
  c7_high_pressure_selection 0.8 (by norm_num) ("FACT".data)

/-- C8: at context pressure exactly 0.7 the `> 0.7` high-compression branch
is NOT taken — every fragment type gets its `TYPE_TO_PRESET` mapping with
the fixed `t1-symbolic` fallback for unmapped types — while at pressure
0.71 the high-compression branch IS taken. -/
theorem c8_pressure_boundary (fragmentType : LStr) :
    selectPreset fragmentType 0.7 =
      (assocLookup fragmentType TYPE_TO_PRESET).getD ("t1-symbolic".data) ∧
    selectPreset fragmentType 0.71 =
      (if fragmentType = "HYPOTHESIS".data ∨ fragmentType = "SYNTHESIS".data ∨
          fragmentType = "INSIGHT".data then "t1-symbolic".data else "t3-compact".data) := by
  constructor
  · have h1 : ¬ ((0.7 : ℚ) > 0.7) := by norm_num
    have h2 : ¬ ((0.7 : ℚ) < 0.3) := by norm_num
    simp [selectPreset, h1, h2]
  · have h1 : (0.71 : ℚ) > 0.7 := by norm_num
    simp [selectPreset, h1]

-- ---------------------------------------------------------------------------
-- Theorems for C9
-- ---------------------------------------------------------------------------

/-- C9: invoking `wisdom_create_fragment` without a `source_transform`
argument always fails with an error, performs no gateway call (so no
fragment is created), and leaves the address cache untouched; when a key
and agent are configured, the error is exactly the
"source_transform is required" validation message. -/
theorem c9_create_fragment_requires_source_transform
    (ctx : FragmentToolContext)
    (gatewayCreateFragment : CreateFragmentRequest → Option LStr → Except LStr GatewayFragment)
    (signMessage : LStr → LStr) (freshUuid nowIso : LStr) (args : CreateFragmentArgs)
    (h : args.source_transform = none) :
    (∃ e, (wisdomCreateFragmentHandler ctx gatewayCreateFragment signMessage freshUuid
        nowIso args).result = .error e) ∧
    (wisdomCreateFragmentHandler ctx gatewayCreateFragment signMessage freshUuid
      nowIso args).gatewayCalls = [] ∧
    (wisdomCreateFragmentHandler ctx gatewayCreateFragment signMessage freshUuid
      nowIso args).cache = ctx.addressCache ∧
    (ctx.privateKey ≠ none → ctx.agent_uuid ≠ none →
      (wisdomCreateFragmentHandler ctx gatewayCreateFragment signMessage freshUuid
        nowIso args).result =
        .error (("source_transform is required. Every fragment must " ++
          "reference a transform that produced it. Create a transform first with " ++
          "wisdom_create_transform.").data)) := by
  cases hpk : ctx.privateKey with
  | none =>
    refine ⟨⟨("No private key configured. Run wisdom_generate_keypair first.".data), ?_⟩,
      ?_, ?_, fun hne _ => absurd rfl hne⟩ <;>
      simp [wisdomCreateFragmentHandler, hpk]
  | some pk =>
    cases hag : ctx.agent_uuid with
    | none =>
      refine ⟨⟨("No agent configured. Run wisdom_generate_keypair first.".data), ?_⟩,
        ?_, ?_, fun _ hne => absurd rfl hne⟩ <;>
        simp [wisdomCreateFragmentHandler, hpk, hag]
    | some ag =>
      refine ⟨⟨(("source_transform is required. Every fragment must " ++
          "reference a transform that produced it. Create a transform first with " ++
          "wisdom_create_transform.").data), ?_⟩, ?_, ?_, fun _ _ => ?_⟩ <;>
        simp [wisdomCreateFragmentHandler, hpk, hag, h]

theorem c9_create_fragment_requires_source_transform_witness :
    (∃ e, (wisdomCreateFragmentHandler
        { privateKey := some ("key".data), agent_uuid := some ("agent-1".data)
          hub_host := none, current_project := none, addressCache := demoAfterPuts }
        (fun _ _ => .error ("unreachable".data)) (fun _ => "sig".data)
        ("uuid-1".data) ("2025-01-01T00:00:00.000Z".data)
        { content := "hello".data, project := none, source_transform := none }).result =
      .error e) ∧
    (wisdomCreateFragmentHandler
      { privateKey := some ("key".data), agent_uuid := some ("agent-1".data)
        hub_host := none, current_project := none, addressCache := demoAfterPuts }
      (fun _ _ => .error ("unreachable".data)) (fun _ => "sig".data)
      ("uuid-1".data) ("2025-01-01T00:00:00.000Z".data)
      { content := "hello".data, project := none, source_transform := none }).gatewayCalls
      = [] ∧
    (wisdomCreateFragmentHandler
      { privateKey := some ("key".data), agent_uuid := some ("agent-1".data)
        hub_host := none, current_project := none, addressCache := demoAfterPuts }
      (fun _ _ => .error ("unreachable".data)) (fun _ => "sig".data)
      ("uuid-1".data) ("2025-01-01T00:00:00.000Z".data)
      { content := "hello".data, project := none, source_transform := none }).cache
      = demoAfterPuts ∧
    ((some ("key".data) : Option LStr) ≠ none → (some ("agent-1".data) : Option LStr) ≠ none →
      (wisdomCreateFragmentHandler
        { privateKey := some ("key".data), agent_uuid := some ("agent-1".data)
          hub_host := none, current_project := none, addressCache := demoAfterPuts }
        (fun _ _ => .error ("unreachable".data)) (fun _ => "sig".data)
        ("uuid-1".data) ("2025-01-01T00:00:00.000Z".data)
        { content := "hello".data, project := none, source_transform := none }).result =
        .error (("source_transform is required. Every fragment must " ++
          "reference a transform that produced it. Create a transform first with " ++
          "wisdom_create_transform.").data)) :=
  c9_create_fragment_requires_source_transform
    { privateKey := some ("key".data), agent_uuid := some ("agent-1".data)
      hub_host := none, current_project := none, addressCache := demoAfterPuts }
    (fun _ _ => .error ("unreachable".data)) (fun _ => "sig".data)
    ("uuid-1".data) ("2025-01-01T00:00:00.000Z".data)
    { content := "hello".data, project := none, source_transform := none } rfl
